import Mathlib

/-!
Verification development for the backup-go repository.

The definitions below are shallow embeddings of the Go source:
string helpers embed `strings.HasPrefix`, `strings.HasSuffix`,
`strings.TrimPrefix`, `strings.TrimSuffix` and `path/filepath.Base`
(Unix rules); the timestamp functions embed `time.Time.Format` and
`time.Parse` for the fixed layout `"20060102-150405"` used by the
pipeline; later sections embed the retention scan, the uploader retry
loop, the progress reader, the archiver control flow, the scheduler
next-run computation and the PID-file run guard.
-/

namespace BackupGo

/-- Embedding of Go `strings.HasPrefix s pre` (over the character list of the string). -/
def strStartsWith (s p : String) : Bool := p.data.isPrefixOf s.data

/-- Embedding of Go `strings.HasSuffix s suf` (over the character list of the string). -/
def strEndsWith (s suf : String) : Bool := suf.data.isSuffixOf s.data

/-- Embedding of Go `strings.TrimPrefix`: drop the leading occurrence when present. -/
def trimLeading (s p : String) : String :=
  if strStartsWith s p then ⟨s.data.drop p.data.length⟩ else s

/-- Embedding of Go `strings.TrimSuffix`: drop the trailing occurrence when present. -/
def trimTrailing (s suf : String) : String :=
  if strEndsWith s suf then ⟨s.data.take (s.data.length - suf.data.length)⟩ else s

/-- Embedding of Go `filepath.Base` on Unix: empty path gives ".", trailing
slashes are stripped first, an all-slash path gives "/", otherwise the last
path component is returned. -/
def basename (p : String) : String :=
  if p.data.isEmpty then "." else
  let r := p.data.reverse.dropWhile (fun c => c = '/')
  if r.isEmpty then "/" else ⟨(r.takeWhile (fun c => c ≠ '/')).reverse⟩

/-- Embedding of `isBackupObject` (src/config.go / src/unnamed/part_004): the
base name must start with "backup-" and end with ".tar.zst". -/
def isBackupObject (key : String) : Bool :=
  let name := basename key
  strStartsWith name "backup-" && strEndsWith name ".tar.zst"

/-- Civil date-time at second granularity, the value space of Go's
`time.Parse("20060102-150405", ·)` (sub-second and zone information of
`time.Time` are irrelevant to the backup naming scheme). -/
structure DateTime where
  year : Nat
  month : Nat
  day : Nat
  hour : Nat
  minute : Nat
  second : Nat
deriving DecidableEq, Repr

/-- Gregorian leap-year rule, as in Go `time.isLeap`. -/
def isLeapYear (y : Nat) : Bool := y % 4 = 0 && (y % 100 ≠ 0 || y % 400 = 0)

/-- Days in a month, as in Go `time.daysIn`. -/
def daysInMonth (y m : Nat) : Nat :=
  if m = 2 then (if isLeapYear y then 29 else 28)
  else if m = 4 ∨ m = 6 ∨ m = 9 ∨ m = 11 then 30 else 31

/-- Datetimes representable in the fixed-width layout `20060102-150405` and
accepted by Go `time.Parse`'s range checks. -/
def DateTime.Valid (d : DateTime) : Prop :=
  d.year ≤ 9999 ∧ 1 ≤ d.month ∧ d.month ≤ 12 ∧ 1 ≤ d.day ∧
    d.day ≤ daysInMonth d.year d.month ∧ d.hour ≤ 23 ∧ d.minute ≤ 59 ∧ d.second ≤ 59

instance (d : DateTime) : Decidable d.Valid := by
  unfold DateTime.Valid
  infer_instance

/-- Digit value of a character, as Go's parser reads one decimal digit
(`c - '0'` guarded by the digit range). -/
def charToDigit (c : Char) : Option Nat :=
  if '0' ≤ c ∧ c ≤ '9' then some (c.toNat - '0'.toNat) else none

/-- Two fixed decimal digits, as read by `time.Parse` for layout element "01" etc. -/
def num2 (a b : Char) : Option Nat :=
  match charToDigit a, charToDigit b with
  | some x, some y => some (10 * x + y)
  | _, _ => none

/-- Four fixed decimal digits, as read by `time.Parse` for layout element "2006". -/
def num4 (a b c d : Char) : Option Nat :=
  match charToDigit a, charToDigit b, charToDigit c, charToDigit d with
  | some x, some y, some z, some w => some (((x * 10 + y) * 10 + z) * 10 + w)
  | _, _, _, _ => none

/-- Two-digit zero-padded decimal rendering, as produced by Go
`time.Time.Format` for the layout elements "01", "02", "15", "04", "05"
(the formatted values are below 100, where Go prints exactly two digits). -/
def pad2 (n : Nat) : List Char := [Nat.digitChar (n / 10 % 10), Nat.digitChar (n % 10)]

/-- Four-digit zero-padded decimal rendering, as produced by Go
`time.Time.Format` for the layout element "2006" (years of real clock
readings are below 10000, where Go prints exactly four digits). -/
def pad4 (n : Nat) : List Char :=
  [Nat.digitChar (n / 1000 % 10), Nat.digitChar (n / 100 % 10),
   Nat.digitChar (n / 10 % 10), Nat.digitChar (n % 10)]

/-- Embedding of `t.Format("20060102-150405")`. -/
def formatTimestamp (d : DateTime) : String :=
  ⟨pad4 d.year ++ pad2 d.month ++ pad2 d.day ++ ['-'] ++
    pad2 d.hour ++ pad2 d.minute ++ pad2 d.second⟩

/-- Embedding of `time.Parse("20060102-150405", ·)` on the character list:
the layout consumes 4+2+2 digits, a literal '-', then 2+2+2 digits, the whole
input must be consumed, and the field ranges are checked as `time.Parse` does. -/
def parseTimestampChars : List Char → Option DateTime
  | [y1, y2, y3, y4, a1, a2, b1, b2, dash, h1, h2, m1, m2, s1, s2] =>
    if dash = '-' then
      match num4 y1 y2 y3 y4, num2 a1 a2, num2 b1 b2, num2 h1 h2, num2 m1 m2, num2 s1 s2 with
      | some yr, some mo, some da, some ho, some mi, some se =>
        if 1 ≤ mo ∧ mo ≤ 12 ∧ 1 ≤ da ∧ da ≤ daysInMonth yr mo ∧ ho ≤ 23 ∧ mi ≤ 59 ∧ se ≤ 59
        then some ⟨yr, mo, da, ho, mi, se⟩ else none
      | _, _, _, _, _, _ => none
    else none
  | _ => none

/-- Embedding of `time.Parse("20060102-150405", s)`; `none` models a parse error. -/
def parseTimestamp (s : String) : Option DateTime := parseTimestampChars s.data

/-- Embedding of `parseBackupTime` (src/config.go / src/unnamed/part_004):
take the base name, trim the "backup-" head and ".tar.zst" tail, parse the
remainder with layout `20060102-150405`; `none` models `ok = false`. -/
def parseBackupTime (key : String) : Option DateTime :=
  parseTimestamp (trimTrailing (trimLeading (basename key) "backup-") ".tar.zst")

/-- Embedding of the artifact name generated by the pipeline
(`generateArchivePath` in src/backup.go and `RunBackup` in
src/internal/task/task.go): `fmt.Sprintf("backup-%s.tar.zst", t.Format("20060102-150405"))`. -/
def archiveName (d : DateTime) : String := "backup-" ++ formatTimestamp d ++ ".tar.zst"

/-- Strict chronological order of two civil datetimes, the embedding of
`time.Time.Before` on values produced by `time.Parse` (which land in UTC,
where chronological order is lexicographic on the civil fields). -/
def dtLtB (a b : DateTime) : Bool :=
  if a.year ≠ b.year then decide (a.year < b.year)
  else if a.month ≠ b.month then decide (a.month < b.month)
  else if a.day ≠ b.day then decide (a.day < b.day)
  else if a.hour ≠ b.hour then decide (a.hour < b.hour)
  else if a.minute ≠ b.minute then decide (a.minute < b.minute)
  else decide (a.second < b.second)

/-- Per-object decision of the listing loop in `DeleteExpiredBackups`
(src/config.go lines 507-523): a key ending in "/" is skipped as a directory
placeholder, then a key failing `isBackupObject` is skipped, and the delete is
enqueued exactly when the embedded timestamp parses and is strictly before the
expiry cutoff. -/
def isExpiredBackupKey (expire : DateTime) (key : String) : Bool :=
  if strEndsWith key "/" then false
  else if !isBackupObject key then false
  else match parseBackupTime key with
       | some ts => dtLtB ts expire
       | none => false

/-- The paginated listing loop of `DeleteExpiredBackups`: each page's contents
are scanned in order and qualifying keys are enqueued for deletion. -/
def scanPages (expire : DateTime) (pages : List (List String)) : List String :=
  pages.foldl (fun acc page => acc ++ page.filter (isExpiredBackupKey expire)) []

/-- Observable outcome of one `DeleteExpiredBackups` call: how many listing
calls were issued against the store, which keys had a delete call issued
(the worker pool issues exactly one delete per enqueued task), and whether
the function returned nil. -/
structure RetentionRun where
  listCalls : Nat
  deleteCalls : List String
  ok : Bool
deriving DecidableEq, Repr

/-- Embedding of `DeleteExpiredBackups` (src/config.go lines 450-539):
`keepDays ≤ 0` returns nil immediately with no listing and no deletion;
otherwise every page is listed (one store call per page) and the qualifying
keys are deleted. `expire` stands for the cutoff `time.Now().AddDate(0, 0, -keepDays)`
computed at entry. -/
def deleteExpiredBackups (keepDays : Int) (expire : DateTime)
    (pages : List (List String)) : RetentionRun :=
  if keepDays ≤ 0 then ⟨0, [], true⟩
  else ⟨pages.length, scanPages expire pages, true⟩

/-- Result of one `Upload` call as the caller observes it. `exhausted` models
the final error `"上传文件到 COS 失败（已重试 3 次）"` returned after the
3-attempt retry budget is used up; `openFailed` models the immediate return
when the local file cannot be opened. -/
inductive UploadResult where
  | success
  | exhausted
  | openFailed
deriving DecidableEq, Repr

/-- Observable trace of one `Upload` call: how many times the local file was
opened (one fresh open per attempt), the sleeps performed between attempts in
milliseconds, in order, and the final result. -/
structure UploadTrace where
  opens : Nat
  sleeps : List Nat
  result : UploadResult
deriving DecidableEq, Repr

/-- The retry loop of `Upload` (src/config.go lines 396-433): `attempt` is the
Go loop variable, `fuel` the number of remaining iterations (the Go loop runs
while `attempt ≤ 3`, so it starts with fuel 3). `openOk k` tells whether
`os.Open` succeeds on attempt `k`; `putOk k` whether the PUT of attempt `k`
succeeds. After a failed attempt `k < 3` the loop sleeps
`(1 << (attempt-1)) * 500ms` before continuing. -/
def uploadAttempts (openOk putOk : Nat → Bool) : Nat → Nat → UploadTrace
  | _, 0 => ⟨0, [], .exhausted⟩
  | attempt, fuel + 1 =>
    if openOk attempt = false then ⟨1, [], .openFailed⟩
    else if putOk attempt then ⟨1, [], .success⟩
    else if attempt < 3 then
      let backoff := 2 ^ (attempt - 1) * 500
      let rest := uploadAttempts openOk putOk (attempt + 1) fuel
      ⟨rest.opens + 1, backoff :: rest.sleeps, rest.result⟩
    else ⟨1, [], .exhausted⟩

/-- Embedding of `Upload` (src/config.go lines 378-435), starting the retry
loop at attempt 1 with budget 3. -/
def Upload (openOk putOk : Nat → Bool) : UploadTrace :=
  uploadAttempts openOk putOk 1 3

/-- Mutable state of the `progressReader` (src/config.go lines 318-327):
cumulative bytes read, the tick bookkeeping fields, and the `finished` latch.
`lastTime = none` models the zero `time.Time` (`lastTime.IsZero()`). -/
structure PRState where
  read : Nat
  lastRead : Nat
  lastTime : Option Nat
  finished : Bool
deriving DecidableEq, Repr

/-- Initial state built by `newProgressReader`. -/
def initPRState : PRState := ⟨0, 0, none, false⟩

/-- A progress event emitted by `onTick`: the cumulative `read` value reported
and whether the emitting `Read` call saw end-of-stream from the wrapped reader. -/
structure PREvent where
  read : Nat
  atEof : Bool
deriving DecidableEq, Repr

/-- One `progressReader.Read` call (src/config.go lines 338-375). The wrapped
reader's result for this call is `(n, isEof)` and `now` is the current clock
reading. Returns the new state and the emitted event, if any. When `finished`
is already set the call returns `(0, io.EOF)` immediately without reading or
emitting. -/
def progressRead (total interval : Nat) (s : PRState) (now n : Nat) (isEof : Bool) :
    PRState × Option PREvent :=
  if s.finished then (s, none)
  else
    let read := s.read + n
    let tickDue := s.lastTime.isNone || decide (interval ≤ now - (s.lastTime.getD 0))
    let finalDue := isEof && decide (read = total)
    let needTick := tickDue || finalDue
    let finished := finalDue
    if needTick then
      ({ read := read, lastRead := read, lastTime := some now, finished := finished },
        some ⟨read, isEof⟩)
    else
      ({ s with read := read, finished := finished }, none)

/-- Runs a sequence of `Read` calls against the progress reader, collecting
the emitted events in order. Each input is `(now, n, isEof)`: the clock at the
call and the wrapped reader's result. -/
def runProgress (total interval : Nat) : PRState → List (Nat × Nat × Bool) → List PREvent
  | _, [] => []
  | s, (now, n, isEof) :: rest =>
    let (s', ev) := progressRead total interval s now n isEof
    match ev with
    | some e => e :: runProgress total interval s' rest
    | none => runProgress total interval s' rest

/-- Errors `Compress` can return (src/internal/core/archiver, second document
of archiver_test.go, lines 299-413). The source also has a return for a
non-nil `filepath.WalkDir` result (line 381), but its walk callback returns
nil on every path — every per-entry error is logged, counted in
`skippedFiles` and swallowed — and `WalkDir` only returns an error produced
by its callback, so that branch is unreachable and has no constructor here. -/
inductive CompressErr where
  | calcFailed
  | emptySource
  | createFailed
  | zstdFailed
  | twCloseFailed
  | zsCloseFailed
  | statFailed
deriving DecidableEq, Repr

/-- Observable outcome of one `Compress` call: the returned value, whether the
destination file was ever created, and whether it is still on disk when
`Compress` returns. -/
structure CompressOutcome where
  result : Except CompressErr (Nat × Nat)
  created : Bool
  fileOnDisk : Bool
deriving Repr

/-- Oracle inputs standing for the filesystem and library calls inside
`Compress`: the first-pass size result, and the success of `os.Create`,
`zstd.NewWriter`, `tw.Close`, `zs.Close` and the final `os.Stat` (whose
reported size is `statSize`). The second-pass traversal has no oracle: its
callback swallows every per-entry error, so the traversal itself always
returns nil. -/
structure CompressEnv where
  calcSize : Except Unit Nat
  createOk : Bool
  zstdOk : Bool
  twCloseOk : Bool
  zsCloseOk : Bool
  statOk : Bool
  statSize : Nat
deriving Repr

/-- Control flow of `Compress` with the error plumbing of the source kept
exactly. The function-scope variable `err` (declared by
`originalSize, err := CalculateDirSize(...)` and re-used by
`dst, err := os.Create(...)`, `zs, err := zstd.NewWriter(...)` and
`info, err := os.Stat(...)`) drives the deferred cleanup registered after
`os.Create` succeeds, which removes the destination file if and only if that
variable is non-nil when `Compress` returns. The second-pass
`filepath.WalkDir` call always returns nil (its callback swallows every
per-entry error), so control always reaches the close steps; the two
writer-close errors are checked through `if err := ...; err != nil`
statements, whose `err` is a new variable scoped to the `if` and therefore
never reaches the deferred cleanup. -/
def Compress (env : CompressEnv) : CompressOutcome :=
  match env.calcSize with
  | .error _ => ⟨.error .calcFailed, false, false⟩
  | .ok originalSize =>
    if originalSize = 0 then ⟨.error .emptySource, false, false⟩
    else if env.createOk = false then ⟨.error .createFailed, false, false⟩
    else
      -- from here the file exists and the deferred cleanup is armed:
      -- on return the file stays on disk iff the outer err is nil
      if env.zstdOk = false then
        -- zs, err := zstd.NewWriter: outer err set, cleanup removes the file
        ⟨.error .zstdFailed, true, false⟩
      -- the WalkDir traversal returns nil on every execution: continue
      else if env.twCloseOk = false then
        -- if err := tw.Close(): shadowed err, outer err stays nil
        ⟨.error .twCloseFailed, true, true⟩
      else if env.zsCloseOk = false then
        -- if err := zs.Close(): shadowed err, outer err stays nil
        ⟨.error .zsCloseFailed, true, true⟩
      else if env.statOk = false then
        -- info, err := os.Stat: outer err set, cleanup removes the file
        ⟨.error .statFailed, true, false⟩
      else ⟨.ok (originalSize, env.statSize), true, true⟩

/-- Effective UTC offset used by both next-run computations: an empty timezone
string uses the local zone, a timezone that fails to load falls back to the
local zone with a logged warning, otherwise the loaded zone is used.
`load` models `time.LoadLocation` (zones as fixed offsets in seconds) and
`localOff` models `time.Local`. -/
def resolveOffset (tz : String) (load : String → Option Int) (localOff : Int) : Int :=
  if tz ≠ "" then
    match load tz with
    | some off => off
    | none => localOff
  else localOff

/-- Start of the civil day containing the local-wall-clock instant `t`
(seconds on the zone's local timeline; fixed-offset zones, so a day is
exactly 86400 seconds). -/
def dayStart (t : Int) : Int := t - t % 86400

/-- Embedding of `config.CalculateNextRunTime` (src/unnamed/part_000 lines
113-141): build today's target `hour:minute` in the resolved zone and push it
forward one day if it is `Before` the current time. Times are local-wall-clock
seconds; `nowUtc + off` is `time.Now().In(loc)`. -/
def CalculateNextRunTime (hour minute : Nat) (tz : String) (load : String → Option Int)
    (localOff nowUtc : Int) : Int :=
  let off := resolveOffset tz load localOff
  let nowInLoc := nowUtc + off
  let nextRun := dayStart nowInLoc + hour * 3600 + minute * 60
  if nextRun < nowInLoc then nextRun + 86400 else nextRun

/-- Embedding of the coexisting `calculateNextRunTime` (src/unnamed/part_006
lines 2529-2557): same zone resolution and target construction, but returns
today's target only when it is strictly `After` the current time, otherwise
tomorrow's. -/
def calculateNextRunTime (hour minute : Nat) (tz : String) (load : String → Option Int)
    (localOff nowUtc : Int) : Int :=
  let off := resolveOffset tz load localOff
  let now := nowUtc + off
  let todayRun := dayStart now + hour * 3600 + minute * 60
  if now < todayRun then todayRun else todayRun + 86400

/-- On-disk state relevant to the run guard: the contents of `tmp/backup.pid`,
or `none` when the file is absent. A recorded value of 0 stands for contents
that fail the `pid <= 0` validity check in `checkBackupRunning`. -/
structure GuardState where
  pidFile : Option Nat
deriving DecidableEq, Repr

/-- Embedding of `checkBackupRunning` (src/backup.go lines 430-471): reads the
PID file if present, removes it when the recorded PID is invalid or the
process is dead, and reports a live run only when the recorded process still
answers signal 0 (`alive`). -/
def checkBackupRunning (alive : Nat → Bool) (s : GuardState) : Bool × GuardState :=
  match s.pidFile with
  | none => (false, s)
  | some pid =>
    if pid = 0 then (false, ⟨none⟩)
    else if alive pid then (true, s)
    else (false, ⟨none⟩)

/-- Embedding of `createPidFile` (src/backup.go lines 474-485): writes the
current process id into `tmp/backup.pid`. -/
def createPidFile (self : Nat) (_ : GuardState) : GuardState := ⟨some self⟩

/-- Embedding of `removePidFile` (src/backup.go lines 488-491). -/
def removePidFile (_ : GuardState) : GuardState := ⟨none⟩

/-- Embedding of `prepareTempDir` (src/config.go lines 197-205): it runs
`os.RemoveAll(TempDir)` followed by `os.MkdirAll(TempDir)`, which deletes
`tmp/backup.pid` along with everything else under `tmp/`. -/
def prepareTempDir (_ : GuardState) : GuardState := ⟨none⟩

/-- Observable outcome of one `runScheduledBackup` trigger: how many pipeline
executions it started (`performBackup` calls), the guard state visible on disk
while that pipeline is executing, and the final guard state after the
deferred `removePidFile`. -/
structure TriggerOutcome where
  invocations : Nat
  midRun : GuardState
  final : GuardState
deriving DecidableEq, Repr

/-- Embedding of `runScheduledBackup` (src/backup.go lines 494-529): skip when
`checkBackupRunning` reports a live run; otherwise write the PID file, run
`prepareTempDir`, execute the pipeline, and remove the PID file on return
(success or failure alike — the model ignores the pipeline's own result since
the deferred remove runs either way). -/
def runScheduledBackup (self : Nat) (alive : Nat → Bool) (s : GuardState) : TriggerOutcome :=
  let (running, s1) := checkBackupRunning alive s
  if running then ⟨0, s1, s1⟩
  else
    let s2 := createPidFile self s1
    let s3 := prepareTempDir s2
    -- the pipeline (performBackup and the retention scan) executes with s3 on disk
    ⟨1, s3, removePidFile s3⟩

/-- Embedding of Go `strings.Contains s ".."` as used by the symlink check in
`addTarEntry`: an occurrence of the two-character sequence ".." anywhere in
the string. -/
def listContainsSeq (seq : List Char) : List Char → Bool
  | [] => seq.isPrefixOf []
  | c :: rest => seq.isPrefixOf (c :: rest) || listContainsSeq seq rest

/-- Embedding of `strings.Contains(link, "..")`. -/
def hasDotDot (s : String) : Bool := listContainsSeq ['.', '.'] s.data

/-- Embedding of `filepath.IsAbs` on Unix: the path starts with '/'. -/
def isAbsPath (s : String) : Bool := strStartsWith s "/"

/-- Splitting a character list on a separator character, used to express the
spec's notion of '/'-separated path segments. -/
def splitOnChar (sep : Char) : List Char → List (List Char)
  | [] => [[]]
  | c :: cs =>
    match splitOnChar sep cs with
    | [] => [[]]
    | h :: t => if c = sep then [] :: h :: t else (c :: h) :: t

/-- The spec's wording for the first rejection rule: the link target contains
a parent-directory traversal segment, i.e. some '/'-separated path component
equals "..". Used to compare the spec's rule with the source's substring
check. -/
def hasDotDotSegment (s : String) : Bool :=
  (splitOnChar '/' s.data).any (fun seg => seg = ['.', '.'])

/-- What `addTarEntry` does with one symlink entry. -/
inductive SymlinkAction where
  | skipEntry
  | writeHeader (linkname : String)
  | headerError
deriving DecidableEq, Repr

/-- Embedding of the symlink branch of `addTarEntry` (src/backup.go lines
88-124 and the archiver copy): with the readable link target `link`,
the entry is skipped (traversal continues) when the target contains ".." as a
substring, or is an absolute path, or does not exist on disk relative to the
link's directory (`targetExists`, the `os.Stat(filepath.Join(dir, link))`
oracle); otherwise a symlink header carrying the original target string is
written (`tar.FileInfoHeader` never fails for a symlink; a `tw.WriteHeader`
failure, `writeOk = false`, is returned as an error). -/
def addTarEntrySymlink (link : String) (targetExists writeOk : Bool) : SymlinkAction :=
  if hasDotDot link then .skipEntry
  else if isAbsPath link then .skipEntry
  else if targetExists = false then .skipEntry
  else if writeOk then .writeHeader link
  else .headerError

/-- Total bytes delivered by a list of wrapped-reader results. -/
def sumReads (l : List (Nat × Nat × Bool)) : Nat := (l.map (fun x => x.2.1)).sum

/- ————————————————————————— theorems ————————————————————————— -/

theorem dataAppend (a b : String) : (a ++ b).data = a.data ++ b.data := rfl

theorem isPrefixOf_append_self (l1 l2 : List Char) : l1.isPrefixOf (l1 ++ l2) = true := by
  induction l1 with
  | nil => simp [List.isPrefixOf]
  | cons c cs ih => simp [List.isPrefixOf, ih]

theorem daysInMonth_le (y m : Nat) : daysInMonth y m ≤ 31 := by
  unfold daysInMonth
  split
  · split <;> norm_num
  · split <;> norm_num

theorem scanPages_eq (expire : DateTime) (pages : List (List String)) :
    scanPages expire pages = pages.flatten.filter (isExpiredBackupKey expire) := by
  suffices h : ∀ acc, pages.foldl (fun acc page => acc ++ page.filter (isExpiredBackupKey expire)) acc
      = acc ++ pages.flatten.filter (isExpiredBackupKey expire) by
    simpa [scanPages] using h []
  induction pages with
  | nil => intro acc; simp
  | cons page rest ih =>
    intro acc
    simp [List.foldl_cons, ih, List.filter_append, List.append_assoc]

theorem isExpiredBackupKey_iff (expire : DateTime) (key : String) :
    isExpiredBackupKey expire key = true ↔
      strEndsWith key "/" = false ∧ isBackupObject key = true ∧
        ∃ t, parseBackupTime key = some t ∧ dtLtB t expire = true := by
  unfold isExpiredBackupKey
  cases h1 : strEndsWith key "/" <;> cases h2 : isBackupObject key <;>
    cases h3 : parseBackupTime key <;> simp [h1, h2, h3]

/-- Claim C9: if `retentionDays ≤ 0`, `DeleteExpiredBackups` returns nil
immediately after logging, with zero listing calls and zero delete calls
against the object store, leaving the stored object set unchanged. -/
theorem retention_noop_nonpositive_keepdays (keepDays : Int) (expire : DateTime)
    (pages : List (List String)) (h : keepDays ≤ 0) :
    (deleteExpiredBackups keepDays expire pages).listCalls = 0 ∧
      (deleteExpiredBackups keepDays expire pages).deleteCalls = [] ∧
      (deleteExpiredBackups keepDays expire pages).ok = true := by
  simp [deleteExpiredBackups, h]

/-- Witness for C9 at `keepDays = 0`, a concrete cutoff, and one listed page. -/
theorem retention_noop_nonpositive_keepdays_witness :
    (deleteExpiredBackups 0 ⟨2025, 9, 11, 0, 0, 0⟩ [["backup-20200101-000000.tar.zst"]]).listCalls = 0 ∧
      (deleteExpiredBackups 0 ⟨2025, 9, 11, 0, 0, 0⟩ [["backup-20200101-000000.tar.zst"]]).deleteCalls = [] ∧
      (deleteExpiredBackups 0 ⟨2025, 9, 11, 0, 0, 0⟩ [["backup-20200101-000000.tar.zst"]]).ok = true :=
  retention_noop_nonpositive_keepdays 0 ⟨2025, 9, 11, 0, 0, 0⟩
    [["backup-20200101-000000.tar.zst"]] (by decide)

/-- Claim C3: if the first-pass total size of the source directory is 0,
`Compress` fails with the empty-source condition before the destination file
is ever opened, so no artifact file is created. -/
theorem compress_empty_source (env : CompressEnv) (h : env.calcSize = .ok 0) :
    (Compress env).result = .error .emptySource ∧ (Compress env).created = false ∧
      (Compress env).fileOnDisk = false := by
  unfold Compress
  rw [h]
  simp

/-- Witness for C3 at a concrete environment whose first pass reports size 0. -/
theorem compress_empty_source_witness :
    (Compress ⟨.ok 0, true, true, true, true, true, 0⟩).result = .error .emptySource ∧
      (Compress ⟨.ok 0, true, true, true, true, true, 0⟩).created = false ∧
      (Compress ⟨.ok 0, true, true, true, true, true, 0⟩).fileOnDisk = false :=
  compress_empty_source ⟨.ok 0, true, true, true, true, true, 0⟩ rfl

/-- Claim C2 (code bug): a second trigger while a run is live is NOT skipped.
Process 100 starts a run on an empty guard state; `runScheduledBackup` writes
`tmp/backup.pid` and immediately calls `prepareTempDir`, whose
`os.RemoveAll(TempDir)` deletes the PID file again, so while the pipeline of
process 100 executes (`midRun`), the PID file is absent; a second trigger from
process 200 — with process 100 still alive — finds no PID file, starts the
pipeline and performs one additional invocation instead of zero. -/
theorem second_trigger_during_run_invokes_pipeline :
    (runScheduledBackup 100 (fun p => decide (p = 100)) ⟨none⟩).invocations = 1 ∧
      (runScheduledBackup 100 (fun p => decide (p = 100)) ⟨none⟩).midRun = ⟨none⟩ ∧
      (checkBackupRunning (fun p => decide (p = 100))
        (runScheduledBackup 100 (fun p => decide (p = 100)) ⟨none⟩).midRun).1 = false ∧
      (runScheduledBackup 200 (fun p => decide (p = 100))
        (runScheduledBackup 100 (fun p => decide (p = 100)) ⟨none⟩).midRun).invocations = 1 ∧
      (fun p => decide (p = 100)) 100 = true := by
  decide

/-- Claim C5: `Upload` performs at most 3 attempts, opening the local file
fresh once per attempt; after failed attempt k < 3 it sleeps 500ms·2^(k-1)
(500ms after the first failure, 1s after the second), with no sleep after the
final attempt; after 3 failed attempts it returns the retry-budget-exhausted
error and retries no further. Stated over every outcome oracle `putOk` with
the local file always openable. -/
theorem upload_retry_budget (putOk : Nat → Bool) :
    (Upload (fun _ => true) putOk).opens ≤ 3 ∧
      (putOk 1 = true → Upload (fun _ => true) putOk = ⟨1, [], .success⟩) ∧
      (putOk 1 = false → putOk 2 = true →
        Upload (fun _ => true) putOk = ⟨2, [500], .success⟩) ∧
      (putOk 1 = false → putOk 2 = false → putOk 3 = true →
        Upload (fun _ => true) putOk = ⟨3, [500, 1000], .success⟩) ∧
      (putOk 1 = false → putOk 2 = false → putOk 3 = false →
        Upload (fun _ => true) putOk = ⟨3, [500, 1000], .exhausted⟩) := by
  cases h1 : putOk 1 <;> cases h2 : putOk 2 <;> cases h3 : putOk 3 <;>
    simp [Upload, uploadAttempts, h1, h2, h3]

/-- Witness for C5: with every PUT failing, the trace is 3 opens, sleeps of
500ms and 1000ms, and the budget-exhausted error. -/
theorem upload_retry_budget_witness :
    Upload (fun _ => true) (fun _ => false) = ⟨3, [500, 1000], .exhausted⟩ :=
  (upload_retry_budget (fun _ => false)).2.2.2.2 rfl rfl rfl

/-- Counterexample to C7 as stated: the link target "a..b" contains no
parent-directory traversal segment, is relative, and exists, so by the claim a
symlink header would be written; the source's check is
`strings.Contains(link, "..")`, a plain substring test, so the entry is
skipped. -/
theorem symlink_substring_counterexample :
    addTarEntrySymlink "a..b" true true = .skipEntry ∧
      hasDotDotSegment "a..b" = false ∧ isAbsPath "a..b" = false := by
  decide

/-- Claim C7 (amended): a symlink entry with readable target `link` is
preserved as a symlink entry carrying the original target string (never
dereferenced); it is skipped — with the traversal continuing — exactly when
the target contains ".." as a substring (not only as a path segment), or is
an absolute path, or does not exist on disk relative to the link's directory;
otherwise the symlink header is written. -/
theorem symlink_entry_decision (link : String) (targetExists : Bool) :
    (addTarEntrySymlink link targetExists true = .skipEntry ↔
      (hasDotDot link = true ∨ isAbsPath link = true ∨ targetExists = false)) ∧
      (hasDotDot link = false → isAbsPath link = false → targetExists = true →
        addTarEntrySymlink link targetExists true = .writeHeader link) := by
  cases h1 : hasDotDot link <;> cases h2 : isAbsPath link <;> cases targetExists <;>
    simp [addTarEntrySymlink, h1, h2]

/-- Witness for C7 at a safe relative existing target: the header is written
with the original target string. -/
theorem symlink_entry_decision_witness :
    addTarEntrySymlink "data/file.txt" true true = .writeHeader "data/file.txt" :=
  (symlink_entry_decision "data/file.txt" true).2 (by decide) (by decide) rfl

/-- Counterexample to C6 as stated: with `hour = 2, minute = 0`, zone offset 0
and the current time exactly 02:00:00 (second 7200 of the day), the wall-clock
time 02:00 has not yet passed, so the claimed rule requires today's 02:00 from
both implementations; `CalculateNextRunTime` (src/unnamed/part_000) returns
today's 02:00 but `calculateNextRunTime` (src/unnamed/part_006) returns
tomorrow's, so no single rule of the claimed form holds for both coexisting
implementations. -/
theorem next_run_boundary_counterexample :
    CalculateNextRunTime 2 0 "" (fun _ => none) 0 7200 = 7200 ∧
      calculateNextRunTime 2 0 "" (fun _ => none) 0 7200 = 7200 + 86400 ∧
      calculateNextRunTime 2 0 "" (fun _ => none) 0 7200 ≠ 7200 := by
  decide

/-- Claim C6 (amended): both next-run computations resolve the zone the same
way (configured zone when set and loadable, local zone otherwise) and compute
today's target `hour:minute` in that zone's wall clock; when the current time
is strictly before the target both return today's target, when strictly after
both return tomorrow's; at exactly `hour:minute` the implementations differ:
`CalculateNextRunTime` returns today's target (it only advances when the
target is `Before` now), `calculateNextRunTime` returns tomorrow's (it keeps
today's target only when it is `After` now). Times are seconds on the
resolved zone's wall-clock timeline (fixed-offset zones). -/
theorem next_run_computation (hour minute : Nat) (tz : String)
    (load : String → Option Int) (localOff nowUtc : Int) :
    (nowUtc + resolveOffset tz load localOff <
        dayStart (nowUtc + resolveOffset tz load localOff) + hour * 3600 + minute * 60 →
      CalculateNextRunTime hour minute tz load localOff nowUtc =
          dayStart (nowUtc + resolveOffset tz load localOff) + hour * 3600 + minute * 60 ∧
        calculateNextRunTime hour minute tz load localOff nowUtc =
          dayStart (nowUtc + resolveOffset tz load localOff) + hour * 3600 + minute * 60) ∧
    (dayStart (nowUtc + resolveOffset tz load localOff) + hour * 3600 + minute * 60 <
        nowUtc + resolveOffset tz load localOff →
      CalculateNextRunTime hour minute tz load localOff nowUtc =
          dayStart (nowUtc + resolveOffset tz load localOff) + hour * 3600 + minute * 60 + 86400 ∧
        calculateNextRunTime hour minute tz load localOff nowUtc =
          dayStart (nowUtc + resolveOffset tz load localOff) + hour * 3600 + minute * 60 + 86400) ∧
    (nowUtc + resolveOffset tz load localOff =
        dayStart (nowUtc + resolveOffset tz load localOff) + hour * 3600 + minute * 60 →
      CalculateNextRunTime hour minute tz load localOff nowUtc =
          dayStart (nowUtc + resolveOffset tz load localOff) + hour * 3600 + minute * 60 ∧
        calculateNextRunTime hour minute tz load localOff nowUtc =
          dayStart (nowUtc + resolveOffset tz load localOff) + hour * 3600 + minute * 60 + 86400) ∧
    (tz = "" → resolveOffset tz load localOff = localOff) ∧
    (load tz = none → resolveOffset tz load localOff = localOff) := by
  refine ⟨fun h => ?_, fun h => ?_, fun h => ?_, fun h => ?_, fun h => ?_⟩
  · constructor <;> simp [CalculateNextRunTime, calculateNextRunTime] <;> omega
  · constructor <;> simp [CalculateNextRunTime, calculateNextRunTime] <;> omega
  · constructor <;> simp [CalculateNextRunTime, calculateNextRunTime] <;> omega
  · simp [resolveOffset, h]
  · unfold resolveOffset
    split
    · rw [h]
    · rfl

/-- Claim C1 (amended): for every object listing and positive retention
window, the retention scan enqueues a delete call for exactly the
non-placeholder objects (key not ending in "/") whose base name matches the
backup naming pattern, whose embedded timestamp parses, and whose timestamp
is strictly before the cutoff; an object whose base name does not match the
pattern is never enqueued, regardless of its age. -/
theorem retention_scan_deleted_set (keepDays : Int) (expire : DateTime)
    (pages : List (List String)) (h : 0 < keepDays) :
    (∀ key, key ∈ (deleteExpiredBackups keepDays expire pages).deleteCalls ↔
        (key ∈ pages.flatten ∧ strEndsWith key "/" = false ∧ isBackupObject key = true ∧
          ∃ t, parseBackupTime key = some t ∧ dtLtB t expire = true)) ∧
    (∀ key, isBackupObject key = false →
        key ∉ (deleteExpiredBackups keepDays expire pages).deleteCalls) := by
  have hns : ¬ keepDays ≤ 0 := by omega
  have hmain : ∀ key, key ∈ (deleteExpiredBackups keepDays expire pages).deleteCalls ↔
      (key ∈ pages.flatten ∧ strEndsWith key "/" = false ∧ isBackupObject key = true ∧
        ∃ t, parseBackupTime key = some t ∧ dtLtB t expire = true) := by
    intro key
    simp only [deleteExpiredBackups, if_neg hns, scanPages_eq, List.mem_filter,
      isExpiredBackupKey_iff]
  refine ⟨hmain, fun key hk hmem => ?_⟩
  have h2 := (hmain key).mp hmem
  rw [h2.2.2.1] at hk
  cases hk

/-- Witness for C1: a thirty-day window, one listed page, and a qualifying
key, which the theorem places in the delete calls. -/
theorem retention_scan_deleted_set_witness :
    "backup/backup-20200101-000000.tar.zst" ∈
      (deleteExpiredBackups 30 ⟨2025, 9, 11, 0, 0, 0⟩
        [["backup/backup-20200101-000000.tar.zst"]]).deleteCalls := by
  have h := (retention_scan_deleted_set 30 ⟨2025, 9, 11, 0, 0, 0⟩
    [["backup/backup-20200101-000000.tar.zst"]] (by decide)).1
    "backup/backup-20200101-000000.tar.zst"
  exact h.mpr ⟨by decide, by decide, by decide, ⟨2020, 1, 1, 0, 0, 0⟩, by decide, by decide⟩

/-- Counterexample to C1 as stated: the placeholder key
"backup/backup-20200101-000000.tar.zst/" ends in "/", yet its base name
(`filepath.Base` strips trailing slashes) matches the backup pattern and its
timestamp parses and is far older than the cutoff, so the claim as stated
requires it to be deleted; the scan skips every key ending in "/" before the
name check, so no delete call is issued for it. -/
theorem retention_scan_claim_counterexample :
    isBackupObject "backup/backup-20200101-000000.tar.zst/" = true ∧
      parseBackupTime "backup/backup-20200101-000000.tar.zst/" = some ⟨2020, 1, 1, 0, 0, 0⟩ ∧
      dtLtB ⟨2020, 1, 1, 0, 0, 0⟩ ⟨2025, 9, 11, 0, 0, 0⟩ = true ∧
      (deleteExpiredBackups 30 ⟨2025, 9, 11, 0, 0, 0⟩
        [["backup/backup-20200101-000000.tar.zst/"]]).deleteCalls = [] := by
  decide

theorem charToDigit_digitChar : ∀ x < 10, charToDigit (Nat.digitChar x) = some x := by
  decide

theorem num2_pad2 (n : Nat) (h : n < 100) :
    num2 (Nat.digitChar (n / 10 % 10)) (Nat.digitChar (n % 10)) = some n := by
  have h1 := charToDigit_digitChar (n / 10 % 10) (Nat.mod_lt _ (by norm_num))
  have h2 := charToDigit_digitChar (n % 10) (Nat.mod_lt _ (by norm_num))
  unfold num2
  rw [h1, h2]
  show some (10 * (n / 10 % 10) + n % 10) = some n
  congr 1
  omega

theorem num4_pad4 (n : Nat) (h : n < 10000) :
    num4 (Nat.digitChar (n / 1000 % 10)) (Nat.digitChar (n / 100 % 10))
      (Nat.digitChar (n / 10 % 10)) (Nat.digitChar (n % 10)) = some n := by
  have h1 := charToDigit_digitChar (n / 1000 % 10) (Nat.mod_lt _ (by norm_num))
  have h2 := charToDigit_digitChar (n / 100 % 10) (Nat.mod_lt _ (by norm_num))
  have h3 := charToDigit_digitChar (n / 10 % 10) (Nat.mod_lt _ (by norm_num))
  have h4 := charToDigit_digitChar (n % 10) (Nat.mod_lt _ (by norm_num))
  unfold num4
  rw [h1, h2, h3, h4]
  show some (((n / 1000 % 10 * 10 + n / 100 % 10) * 10 + n / 10 % 10) * 10 + n % 10) = some n
  congr 1
  omega

theorem parseTimestamp_formatTimestamp (d : DateTime) (h : d.Valid) :
    parseTimestamp (formatTimestamp d) = some d := by
  obtain ⟨hy, hm1, hm2, hd1, hd2, hh, hmi, hs⟩ := h
  show parseTimestampChars (pad4 d.year ++ pad2 d.month ++ pad2 d.day ++ ['-'] ++
    pad2 d.hour ++ pad2 d.minute ++ pad2 d.second) = some d
  have hda : d.day < 100 := by
    have := daysInMonth_le d.year d.month
    omega
  simp only [pad4, pad2, List.cons_append, List.nil_append, List.append_nil]
  rw [parseTimestampChars]
  rw [if_pos rfl]
  rw [num4_pad4 d.year (by omega), num2_pad2 d.month (by omega), num2_pad2 d.day hda,
    num2_pad2 d.hour (by omega), num2_pad2 d.minute (by omega), num2_pad2 d.second (by omega)]
  show (if 1 ≤ d.month ∧ d.month ≤ 12 ∧ 1 ≤ d.day ∧ d.day ≤ daysInMonth d.year d.month ∧
      d.hour ≤ 23 ∧ d.minute ≤ 59 ∧ d.second ≤ 59
    then some ⟨d.year, d.month, d.day, d.hour, d.minute, d.second⟩ else none) = some d
  rw [if_pos ⟨hm1, hm2, hd1, hd2, hh, hmi, hs⟩]

theorem digitChar_mod_ne_slash (x : Nat) : Nat.digitChar (x % 10) ≠ '/' := by
  have hall : ∀ y < 10, Nat.digitChar y ≠ '/' := by decide
  exact hall _ (Nat.mod_lt _ (by norm_num))

theorem formatTimestamp_ne_slash (d : DateTime) : ∀ c ∈ (formatTimestamp d).data, c ≠ '/' := by
  intro c hc
  have hd : (formatTimestamp d).data = pad4 d.year ++ pad2 d.month ++ pad2 d.day ++ ['-'] ++
      pad2 d.hour ++ pad2 d.minute ++ pad2 d.second := rfl
  rw [hd] at hc
  simp only [pad4, pad2, List.cons_append, List.nil_append, List.mem_cons,
    List.not_mem_nil, or_false] at hc
  rcases hc with rfl | rfl | rfl | rfl | rfl | rfl | rfl | rfl | rfl | rfl | rfl | rfl | rfl | rfl | rfl
  all_goals first
    | exact digitChar_mod_ne_slash _
    | decide

theorem basename_of_no_slash (s : String) (hne : s.data ≠ [])
    (h : ∀ c ∈ s.data, c ≠ '/') : basename s = s := by
  have hrevne : s.data.reverse ≠ [] := by simpa using hne
  have hdrop : s.data.reverse.dropWhile (fun c => c = '/') = s.data.reverse := by
    rw [List.dropWhile_eq_self_iff]
    intro hl
    simpa using h _ (List.mem_reverse.mp (List.get_mem _ _ hl))
  have htake : s.data.reverse.takeWhile (fun c => c ≠ '/') = s.data.reverse := by
    rw [List.takeWhile_eq_self_iff]
    intro c hc
    simpa using h c (List.mem_reverse.mp hc)
  simp only [basename, hdrop, htake, List.reverse_reverse]
  rw [if_neg (by simpa [List.isEmpty_iff] using hne), if_neg (by simpa [List.isEmpty_iff] using hrevne)]

theorem archiveName_data (d : DateTime) :
    (archiveName d).data = ("backup-".data ++ (formatTimestamp d).data) ++ ".tar.zst".data := rfl

theorem basename_archiveName (d : DateTime) : basename (archiveName d) = archiveName d := by
  apply basename_of_no_slash
  · rw [archiveName_data]
    intro hc
    have hlen := congrArg List.length hc
    simp [List.length_append] at hlen
  · intro c hc
    rw [archiveName_data] at hc
    rcases List.mem_append.mp hc with hc1 | hc2
    · rcases List.mem_append.mp hc1 with hc3 | hc4
      · have hlit : ∀ c ∈ "backup-".data, c ≠ '/' := by decide
        exact hlit c hc3
      · exact formatTimestamp_ne_slash d c hc4
    · have hlit : ∀ c ∈ ".tar.zst".data, c ≠ '/' := by decide
      exact hlit c hc2

/-- Claim C10: for every (second-granularity, in-range) time `t`, the artifact
name the pipeline generates — "backup-" ++ format(t) ++ ".tar.zst" with layout
20060102-150405 — satisfies `isBackupObject`, and `parseBackupTime` applied to
that name succeeds and recovers `t` (formatting already truncates to whole
seconds, which the model's second-granularity `DateTime` makes explicit), so
every artifact the pipeline uploads is recognized by the retention scanner. -/
theorem backup_naming_roundtrip (d : DateTime) (h : d.Valid) :
    isBackupObject (archiveName d) = true ∧ parseBackupTime (archiveName d) = some d := by
  have hbase := basename_archiveName d
  have hdata : (archiveName d).data =
      "backup-".data ++ ((formatTimestamp d).data ++ ".tar.zst".data) := by
    rw [archiveName_data, List.append_assoc]
  have hstart : strStartsWith (archiveName d) "backup-" = true := by
    rw [strStartsWith, hdata]
    exact isPrefixOf_append_self _ _
  have hend : strEndsWith (archiveName d) ".tar.zst" = true := by
    rw [strEndsWith, archiveName_data]
    exact List.isSuffixOf_iff_suffix.mpr (List.suffix_append _ _)
  have htrimL : trimLeading (archiveName d) "backup-" =
      ⟨(formatTimestamp d).data ++ ".tar.zst".data⟩ := by
    rw [trimLeading, if_pos hstart]
    show (⟨(archiveName d).data.drop "backup-".data.length⟩ : String) = _
    rw [hdata, List.drop_left]
  have htrimT : trimTrailing (⟨(formatTimestamp d).data ++ ".tar.zst".data⟩ : String)
      ".tar.zst" = formatTimestamp d := by
    have hend2 : strEndsWith (⟨(formatTimestamp d).data ++ ".tar.zst".data⟩ : String)
        ".tar.zst" = true :=
      List.isSuffixOf_iff_suffix.mpr (List.suffix_append _ _)
    rw [trimTrailing, if_pos hend2]
    show (⟨((formatTimestamp d).data ++ ".tar.zst".data).take
      (((formatTimestamp d).data ++ ".tar.zst".data).length - ".tar.zst".data.length)⟩ : String) =
      formatTimestamp d
    have hl : ((formatTimestamp d).data ++ ".tar.zst".data).length - ".tar.zst".data.length =
        (formatTimestamp d).data.length := by
      simp [List.length_append]
    rw [hl, List.take_left]
  refine ⟨?_, ?_⟩
  · simp [isBackupObject, hbase, hstart, hend]
  · rw [parseBackupTime, hbase, htrimL, htrimT]
    exact parseTimestamp_formatTimestamp d h

/-- Witness for C10 at the concrete time 2024-03-15 02:30:45. -/
theorem backup_naming_roundtrip_witness :
    isBackupObject (archiveName ⟨2024, 3, 15, 2, 30, 45⟩) = true ∧
      parseBackupTime (archiveName ⟨2024, 3, 15, 2, 30, 45⟩) = some ⟨2024, 3, 15, 2, 30, 45⟩ :=
  backup_naming_roundtrip ⟨2024, 3, 15, 2, 30, 45⟩ (by decide)

theorem runProgress_finished (total interval : Nat) (s : PRState)
    (l : List (Nat × Nat × Bool)) (hs : s.finished = true) :
    runProgress total interval s l = [] := by
  induction l with
  | nil => rfl
  | cons x rest ih =>
    obtain ⟨now, n, isEof⟩ := x
    simp [runProgress, progressRead, hs, ih]

theorem sumReads_cons (now n : Nat) (flag : Bool) (l : List (Nat × Nat × Bool)) :
    sumReads ((now, n, flag) :: l) = n + sumReads l := by
  simp [sumReads]

theorem runProgress_delivers_final (total interval : Nat)
    (post : List (Nat × Nat × Bool)) (nowE nE : Nat) :
    ∀ (pre : List (Nat × Nat × Bool)) (s : PRState),
      (∀ x ∈ pre, x.2.2 = false) → s.finished = false →
      s.read + sumReads pre + nE = total →
      (runProgress total interval s (pre ++ (nowE, nE, true) :: post)).filter
          (fun e => e.atEof) = [⟨total, true⟩] := by
  intro pre
  induction pre with
  | nil =>
    intro s _ hs hsum
    have hread : s.read + nE = total := by simpa [sumReads] using hsum
    have hstep : progressRead total interval s nowE nE true =
        ({ read := total, lastRead := total, lastTime := some nowE, finished := true },
          some ⟨total, true⟩) := by
      simp [progressRead, hs, hread]
    have hrest : runProgress total interval
        { read := total, lastRead := total, lastTime := some nowE, finished := true } post =
        [] := runProgress_finished _ _ _ _ rfl
    simp [runProgress, hstep, hrest]
  | cons x rest ih =>
    intro s hpre hs hsum
    obtain ⟨now, n, flag⟩ := x
    have hflag : flag = false := hpre (now, n, flag) (List.mem_cons_self _ _)
    subst hflag
    have hsum' : (s.read + n) + sumReads rest + nE = total := by
      rw [sumReads_cons] at hsum
      omega
    have hpre' : ∀ x ∈ rest, x.2.2 = false := fun x hx => hpre x (List.mem_cons_of_mem _ hx)
    rw [List.cons_append, runProgress]
    by_cases hb : (s.lastTime.isNone || decide (interval ≤ now - s.lastTime.getD 0)) = true
    · have hstep : progressRead total interval s now n false =
          ((⟨s.read + n, s.read + n, some now, false⟩ : PRState),
            some (⟨s.read + n, false⟩ : PREvent)) := by
        simp [progressRead, hs, hb]
      rw [hstep]
      have hrec := ih ⟨s.read + n, s.read + n, some now, false⟩ hpre' rfl hsum'
      simpa using hrec
    · have hstep : progressRead total interval s now n false =
          ((⟨s.read + n, s.lastRead, s.lastTime, false⟩ : PRState), none) := by
        simp only [Bool.not_eq_true] at hb
        simp [progressRead, hs, hb]
      rw [hstep]
      exact ih ⟨s.read + n, s.lastRead, s.lastTime, false⟩ hpre' rfl hsum'

/-- Claim C8: for any upload stream whose declared total equals the bytes
actually delivered (the wrapped reader reports end-of-stream once the
cumulative reads reach `total`), the progress reader emits exactly one final
completion event, its reported read count equals the total, it is emitted at
the end-of-stream call, and it is never emitted twice — including when
end-of-stream coincides with a regular tick-interval boundary (the clock
values `nowE` and those in `pre`/`post` are unconstrained, so tick-coinciding
schedules are instances of this statement). -/
theorem progress_reader_final_event_once (total interval : Nat)
    (pre post : List (Nat × Nat × Bool)) (nowE nE : Nat)
    (hpre : ∀ x ∈ pre, x.2.2 = false)
    (hsum : sumReads pre + nE = total) :
    (runProgress total interval initPRState (pre ++ (nowE, nE, true) :: post)).filter
        (fun e => e.atEof) = [⟨total, true⟩] :=
  runProgress_delivers_final total interval post nowE nE pre initPRState hpre rfl
    (by simpa [initPRState] using hsum)

/-- Witness for C8: total 10, tick interval 5, two regular chunks of 4 and 6
bytes, end-of-stream at clock 10 — exactly on a tick boundary (previous tick
at clock 5) — and one further read after end-of-stream. Exactly one final
event is emitted and it reports 10 of 10 bytes. -/
theorem progress_reader_final_event_once_witness :
    (runProgress 10 5 initPRState
        ([(0, 4, false), (5, 6, false)] ++ (10, 0, true) :: [(11, 0, true)])).filter
        (fun e => e.atEof) = [⟨10, true⟩] :=
  progress_reader_final_event_once 10 5 [(0, 4, false), (5, 6, false)] [(11, 0, true)] 10 0
    (by decide) (by decide)

/-- Witness for C6 instantiating all three time relations at concrete clock
readings (01:59:59, 02:00:01 and 02:00:00 with a 02:00 schedule, offset 0)
and both zone-fallback facts. -/
theorem next_run_computation_witness :
    CalculateNextRunTime 2 0 "" (fun _ => none) 0 7199 = 7200 ∧
      calculateNextRunTime 2 0 "" (fun _ => none) 0 7199 = 7200 ∧
      CalculateNextRunTime 2 0 "" (fun _ => none) 0 7201 = 7200 + 86400 ∧
      calculateNextRunTime 2 0 "" (fun _ => none) 0 7201 = 7200 + 86400 ∧
      CalculateNextRunTime 2 0 "" (fun _ => none) 0 7200 = 7200 ∧
      calculateNextRunTime 2 0 "" (fun _ => none) 0 7200 = 7200 + 86400 ∧
      resolveOffset "" (fun _ => none) 3600 = 3600 ∧
      resolveOffset "Mars/Olympus" (fun _ => none) 3600 = 3600 := by
  have hb := next_run_computation 2 0 "" (fun _ => none) 0 7199
  have ha := next_run_computation 2 0 "" (fun _ => none) 0 7201
  have he := next_run_computation 2 0 "" (fun _ => none) 0 7200
  have hz := next_run_computation 2 0 "Mars/Olympus" (fun _ => none) 3600 0
  refine ⟨?_, ?_, ?_, ?_, ?_, ?_, ?_, ?_⟩
  · exact ((hb.1 (by decide)).1).trans (by decide)
  · exact ((hb.1 (by decide)).2).trans (by decide)
  · exact ((ha.2.1 (by decide)).1).trans (by decide)
  · exact ((ha.2.1 (by decide)).2).trans (by decide)
  · exact ((he.2.2.1 (by decide)).1).trans (by decide)
  · exact ((he.2.2.1 (by decide)).2).trans (by decide)
  · exact (next_run_computation 2 0 "" (fun _ => none) 3600 0).2.2.2.1 rfl
  · exact hz.2.2.2.2 rfl

end BackupGo
